import Mathlib

/-!
# Verification of the user-profile CRUD applications

Shallow embedding of the two Flask applications in this repository:

* the *auth* variant (`src/app.py`): a `users` table with `username`,
  `email`, hashed `password`, `full_name`, `age`, `bio`, `created_at`,
  `updated_at`; registration with validation-time uniqueness checks and a
  session-scoped profile update;
* the *no-auth* variant (`src/flask_user_profiles_app.py`): a `users`
  table with `username`, `full_name`, `email`, `age`, `bio`; public
  registration, listing and per-id update, with no validation-time
  uniqueness checks.

The SQLite storage layer is modelled as a list of rows plus an
auto-increment counter; `UNIQUE` constraints become explicit collision
checks performed by the insert/update operations, which return
`Except Unit` (`.error ()` standing for `sqlite3.IntegrityError`).

Because the applications perform a validation-time read and a write as two
separate database accesses, each auth-variant operation takes *two* row
lists: `dbV`, the snapshot the validation queries saw, and the current
database the write applies to.  Taking `dbV` equal to the current rows
gives the race-free sequential behaviour; letting them differ models a
concurrent interleaving where another request committed between the
validation read and the write.
-/

namespace SummDemo

/-! ## Python / WTForms string primitives -/

/-- Characters removed by Python `str.strip()` (whitespace). -/
def stripChars (l : List Char) : List Char :=
  ((l.dropWhile Char.isWhitespace).reverse.dropWhile Char.isWhitespace).reverse

/-- Python `s.strip()`: remove leading and trailing whitespace. -/
def pyStrip (s : String) : String :=
  ⟨stripChars s.data⟩

/-- WTForms `DataRequired`: passes iff the string data is truthy and not
whitespace-only, i.e. iff it contains a non-whitespace character. -/
def dataRequiredOk (s : String) : Bool :=
  s.data.any (fun c => !c.isWhitespace)

/-- WTForms `Length(min, max)` on string data (`len(field.data)`,
with `-1` meaning the bound is unset in the source). -/
def lengthBetween (lo hi : Nat) (s : String) : Bool :=
  lo ≤ s.length && s.length ≤ hi

/-- Model of the `email_validator` check behind WTForms `Email()`:
exactly one `@`; non-empty local part of at most 64 characters; non-empty
domain of at most 255 characters containing a dot, not starting or ending
with a dot; no whitespace anywhere.  (A simplification of the library's
RFC 5321/5322 checks; note the library itself imposes no 120-character
cap, which is what matters below.) -/
def emailSyntaxOk (s : String) : Bool :=
  let cs := s.data
  let localPart := cs.takeWhile (fun c => c ≠ '@')
  let domain := (cs.dropWhile (fun c => c ≠ '@')).drop 1
  cs.count '@' == 1 &&
  !localPart.isEmpty && localPart.length ≤ 64 &&
  !domain.isEmpty && domain.length ≤ 255 &&
  domain.contains '.' &&
  domain.head? != some '.' && domain.getLast? != some '.' &&
  !cs.any Char.isWhitespace

/-- `form.age.data if form.age.data else None` (Python truthiness:
`0` is falsy, so an age of `0` would be stored as SQL `NULL`). -/
def pyAgeOrNone (a : Option Int) : Option Int :=
  match a with
  | some n => if n = 0 then none else some n
  | none => none

/-- `form.bio.data if form.bio.data else None` (empty string is falsy). -/
def pyBioOrNone (b : String) : Option String :=
  if b = "" then none else some b

/-! ## Outcomes of a service operation

Each constructor carries the database after the operation, so a step
relation can be stated uniformly over outcomes. -/

/-- Result of a register/update request, as signalled to the browser:
`success` (redirect + success flash), `validationFailure` (form re-shown
with field errors), `conflict` (`sqlite3.IntegrityError` caught, error
flash), `notFound` (row id missing, redirect away), `uncaught`
(`sqlite3.IntegrityError` raised with no handler: a 500 error escapes). -/
inductive Outcome (δ : Type) where
  | success (db : δ)
  | validationFailure (db : δ)
  | conflict (db : δ)
  | notFound (db : δ)
  | uncaught (db : δ)
deriving Repr, DecidableEq

/-- The database state after the operation, whatever the outcome. -/
def Outcome.db {δ : Type} : Outcome δ → δ
  | .success d => d
  | .validationFailure d => d
  | .conflict d => d
  | .notFound d => d
  | .uncaught d => d

/-! ## Auth variant (`src/app.py`) -/

/-- A row of the auth variant's `users` table (`init_db` in `src/app.py`):
`id INTEGER PRIMARY KEY AUTOINCREMENT`, `username TEXT UNIQUE NOT NULL`,
`email TEXT UNIQUE NOT NULL`, `password TEXT NOT NULL`,
`full_name TEXT NOT NULL`, `age INTEGER`, `bio TEXT`,
`created_at`/`updated_at TIMESTAMP` (timestamps modelled as `Nat`). -/
structure AuthRow where
  id : Nat
  username : String
  email : String
  password : String
  full_name : String
  age : Option Int
  bio : Option String
  created_at : Nat
  updated_at : Nat
deriving Repr, DecidableEq

/-- The auth variant's database: the rows plus the `AUTOINCREMENT`
counter (next id to assign, starting at 1). -/
structure AuthDB where
  rows : List AuthRow
  nextId : Nat
deriving Repr, DecidableEq

/-- State after `init_db`: empty table, first id will be 1. -/
def authInitDB : AuthDB := ⟨[], 1⟩

/-- `INSERT INTO users (username, email, password, full_name, age, bio)`:
SQLite raises `IntegrityError` iff some existing row already has the new
username or email (`UNIQUE` constraints); otherwise the row is appended
with the next auto-increment id and `created_at = updated_at = now`. -/
def authInsert (db : AuthDB) (u e pw fn : String) (age : Option Int)
    (bio : Option String) (now : Nat) : Except Unit AuthDB :=
  if db.rows.any (fun r => r.username == u || r.email == e) then
    .error ()
  else
    .ok ⟨db.rows ++ [⟨db.nextId, u, e, pw, fn, age, bio, now, now⟩], db.nextId + 1⟩

/-- `UPDATE users SET email = ?, full_name = ?, age = ?, bio = ?,
updated_at = CURRENT_TIMESTAMP WHERE id = ?`: SQLite raises
`IntegrityError` iff a *different* row already has the new email;
otherwise the matching row (if any) is replaced in place. -/
def authUpdateRow (db : AuthDB) (uid : Nat) (e fn : String) (age : Option Int)
    (bio : Option String) (now : Nat) : Except Unit AuthDB :=
  if db.rows.any (fun r => r.id != uid && r.email == e) then
    .error ()
  else
    .ok ⟨db.rows.map (fun r =>
          if r.id = uid then
            { r with email := e, full_name := fn, age := age, bio := bio,
                     updated_at := now }
          else r), db.nextId⟩

/-- Submitted `RegistrationForm` data.  String fields model the raw form
strings (absent = `""`); `age` models the parsed `IntegerField` value,
`none` standing for an omitted or empty age input. -/
structure AuthRegFields where
  username : String
  email : String
  password : String
  full_name : String
  age : Option Int
  bio : String
deriving Repr, DecidableEq

/-- `RegistrationForm.username`: `DataRequired`, `Length(min=3, max=20)`,
plus `validate_username` querying `SELECT id FROM users WHERE username = ?`
against the validation-time snapshot. -/
def regUsernameOk (dbV : List AuthRow) (u : String) : Bool :=
  dataRequiredOk u && lengthBetween 3 20 u &&
  !dbV.any (fun r => r.username == u)

/-- `RegistrationForm.email`: `DataRequired`, `Email()`, plus
`validate_email` querying `SELECT id FROM users WHERE email = ?`.
(There is no `Length` validator on this field.) -/
def regEmailOk (dbV : List AuthRow) (e : String) : Bool :=
  dataRequiredOk e && emailSyntaxOk e &&
  !dbV.any (fun r => r.email == e)

/-- `RegistrationForm.password`: `DataRequired`, `Length(min=6)`. -/
def regPasswordOk (p : String) : Bool :=
  dataRequiredOk p && 6 ≤ p.length

/-- `full_name` rule in both forms: `DataRequired`, `Length(min=2, max=100)`. -/
def fullNameOk (n : String) : Bool :=
  dataRequiredOk n && lengthBetween 2 100 n

/-- `RegistrationForm.age` / `UpdateProfileForm.age`:
`NumberRange(min=1, max=150)` with no `Optional()` validator in the chain,
so `None` (omitted or empty input) fails the range check. -/
def ageOkAuth (a : Option Int) : Bool :=
  match a with
  | some n => 1 ≤ n && n ≤ 150
  | none => false

/-- `bio` rule in both variants: `Length(max=500)`. -/
def bioOk (b : String) : Bool :=
  b.length ≤ 500

/-- `RegistrationForm.validate_on_submit()`: every field's validator
chain passes against the validation-time snapshot `dbV`. -/
def regFormValid (dbV : List AuthRow) (f : AuthRegFields) : Bool :=
  regUsernameOk dbV f.username && regEmailOk dbV f.email &&
  regPasswordOk f.password && fullNameOk f.full_name &&
  ageOkAuth f.age && bioOk f.bio

/-- Submitted `UpdateProfileForm` data. -/
structure AuthUpdFields where
  email : String
  full_name : String
  age : Option Int
  bio : String
deriving Repr, DecidableEq

/-- `UpdateProfileForm.validate_email`: `DataRequired`, `Email()`, plus
the custom check `SELECT id FROM users WHERE email = ? AND id != ?`
excluding the logged-in user's own row. -/
def updEmailOk (dbV : List AuthRow) (uid : Nat) (e : String) : Bool :=
  dataRequiredOk e && emailSyntaxOk e &&
  !dbV.any (fun r => r.email == e && r.id != uid)

/-- `UpdateProfileForm.validate_on_submit()` for user `uid`. -/
def updFormValid (dbV : List AuthRow) (uid : Nat) (f : AuthUpdFields) : Bool :=
  updEmailOk dbV uid f.email && fullNameOk f.full_name &&
  ageOkAuth f.age && bioOk f.bio

/-- The `register` route of `src/app.py` (POST path): validate against the
snapshot `dbV`; on success hash the password with
`generate_password_hash` (the abstract `hash` parameter) and `INSERT`,
catching `sqlite3.IntegrityError` and flashing an error (`.conflict`). -/
def authRegister (hash : String → String) (now : Nat) (f : AuthRegFields)
    (dbV : List AuthRow) (db : AuthDB) : Outcome AuthDB :=
  if regFormValid dbV f then
    match authInsert db f.username f.email (hash f.password) f.full_name
        (pyAgeOrNone f.age) (pyBioOrNone f.bio) now with
    | .ok db2 => .success db2
    | .error () => .conflict db
  else .validationFailure db

/-- The `update_profile` route of `src/app.py` (POST path): fetch the
current user from the snapshot (`notFound` redirect if absent), validate,
then run the `UPDATE`.  The `UPDATE` is *not* wrapped in a
`try/except sqlite3.IntegrityError`, so a write-time uniqueness violation
escapes as an unhandled exception (`.uncaught`). -/
def authUpdate (now uid : Nat) (f : AuthUpdFields)
    (dbV : List AuthRow) (db : AuthDB) : Outcome AuthDB :=
  if dbV.any (fun r => r.id == uid) then
    if updFormValid dbV uid f then
      match authUpdateRow db uid f.email f.full_name
          (pyAgeOrNone f.age) (pyBioOrNone f.bio) now with
      | .ok db2 => .success db2
      | .error () => .uncaught db
    else .validationFailure db
  else .notFound db

/-! ## No-auth variant (`src/flask_user_profiles_app.py`) -/

/-- A row of the no-auth variant's `users` table (`init_db`):
`id INTEGER PRIMARY KEY AUTOINCREMENT`, `username TEXT NOT NULL UNIQUE`,
`full_name TEXT NOT NULL`, `email TEXT NOT NULL UNIQUE`, `age INTEGER`,
`bio TEXT`. -/
structure PlainRow where
  id : Nat
  username : String
  full_name : String
  email : String
  age : Option Int
  bio : Option String
deriving Repr, DecidableEq

/-- The no-auth variant's database. -/
structure PlainDB where
  rows : List PlainRow
  nextId : Nat
deriving Repr, DecidableEq

/-- State after `init_db`: empty table, first id will be 1. -/
def plainInitDB : PlainDB := ⟨[], 1⟩

/-- `INSERT INTO users (username, full_name, email, age, bio)`:
`IntegrityError` iff an existing row has the new username or email. -/
def plainInsert (db : PlainDB) (u fn e : String) (age : Option Int)
    (bio : Option String) : Except Unit PlainDB :=
  if db.rows.any (fun r => r.username == u || r.email == e) then
    .error ()
  else
    .ok ⟨db.rows ++ [⟨db.nextId, u, fn, e, age, bio⟩], db.nextId + 1⟩

/-- `UPDATE users SET username = ?, full_name = ?, email = ?, age = ?,
bio = ? WHERE id = ?`: `IntegrityError` iff a *different* row already has
the new username or email. -/
def plainUpdateRow (db : PlainDB) (uid : Nat) (u fn e : String)
    (age : Option Int) (bio : Option String) : Except Unit PlainDB :=
  if db.rows.any (fun r => r.id != uid && (r.username == u || r.email == e)) then
    .error ()
  else
    .ok ⟨db.rows.map (fun r =>
          if r.id = uid then
            { r with username := u, full_name := fn, email := e,
                     age := age, bio := bio }
          else r), db.nextId⟩

/-- Submitted `ProfileForm` data (used by both `register` and `update`). -/
structure PlainFields where
  username : String
  full_name : String
  email : String
  age : Option Int
  bio : String
deriving Repr, DecidableEq

/-- `ProfileForm.username`: `DataRequired()`, `Length(min=3, max=30)`. -/
def plainUsernameOk (u : String) : Bool :=
  dataRequiredOk u && lengthBetween 3 30 u

/-- `ProfileForm.email`: `DataRequired()`, `Email()`, `Length(max=120)`. -/
def plainEmailOk (e : String) : Bool :=
  dataRequiredOk e && emailSyntaxOk e && e.length ≤ 120

/-- `ProfileForm.age`: `NumberRange(min=0, max=120)` with no `Optional()`
validator, so `None` fails the range check. -/
def ageOkPlain (a : Option Int) : Bool :=
  match a with
  | some n => 0 ≤ n && n ≤ 120
  | none => false

/-- `ProfileForm.validate_on_submit()`: static per-field rules only; the
form performs no database query (no uniqueness validators). -/
def profileFormValid (f : PlainFields) : Bool :=
  plainUsernameOk f.username && fullNameOk f.full_name &&
  plainEmailOk f.email && ageOkPlain f.age && bioOk f.bio

/-- The `register` route (POST path): validate the static rules, `.strip()`
every string field, `INSERT`, catching `sqlite3.IntegrityError`
(`.conflict`).  Note `bio_value = (form.bio.data or '').strip()` is always
a string — an empty bio is inserted as `''`, not as SQL `NULL`. -/
def plainRegister (f : PlainFields) (db : PlainDB) : Outcome PlainDB :=
  if profileFormValid f then
    match plainInsert db (pyStrip f.username) (pyStrip f.full_name)
        (pyStrip f.email) f.age (some (pyStrip f.bio)) with
    | .ok db2 => .success db2
    | .error () => .conflict db
  else .validationFailure db

/-- The `update` route (POST path): fetch the row by id (`notFound`
redirect if absent), validate the static rules, `.strip()` the strings and
`UPDATE`, catching `sqlite3.IntegrityError` (`.conflict`). -/
def plainUpdate (uid : Nat) (f : PlainFields) (db : PlainDB) : Outcome PlainDB :=
  if db.rows.any (fun r => r.id == uid) then
    if profileFormValid f then
      match plainUpdateRow db uid (pyStrip f.username) (pyStrip f.full_name)
          (pyStrip f.email) f.age (some (pyStrip f.bio)) with
      | .ok db2 => .success db2
      | .error () => .conflict db
    else .validationFailure db
  else .notFound db

/-! ## Step relations and reachability

A step applies one `register` or one update operation to the current
database.  For the auth variant the validation snapshot `dbV` is
universally quantified, so the relation also covers racing interleavings.
The no-auth variant's validation reads no database state at all. -/

/-- One auth-variant operation applied to the current database (the
resulting state is the outcome's database, whatever the outcome). -/
inductive AuthStep : AuthDB → AuthDB → Prop where
  | reg (hash : String → String) (now : Nat) (f : AuthRegFields)
      (dbV : List AuthRow) (db : AuthDB) :
      AuthStep db (authRegister hash now f dbV db).db
  | upd (now uid : Nat) (f : AuthUpdFields) (dbV : List AuthRow) (db : AuthDB) :
      AuthStep db (authUpdate now uid f dbV db).db

/-- Auth-variant states reachable from the freshly initialised database. -/
inductive AuthReach : AuthDB → Prop where
  | init : AuthReach authInitDB
  | step {db db2 : AuthDB} : AuthReach db → AuthStep db db2 → AuthReach db2

/-- One no-auth-variant operation applied to the current database. -/
inductive PlainStep : PlainDB → PlainDB → Prop where
  | reg (f : PlainFields) (db : PlainDB) :
      PlainStep db (plainRegister f db).db
  | upd (uid : Nat) (f : PlainFields) (db : PlainDB) :
      PlainStep db (plainUpdate uid f db).db

/-- No-auth-variant states reachable from the initialised database. -/
inductive PlainReach : PlainDB → Prop where
  | init : PlainReach plainInitDB
  | step {db db2 : PlainDB} : PlainReach db → PlainStep db db2 → PlainReach db2

/-- Database invariant of the auth variant: pairwise distinct ids,
usernames and emails, and every id below the auto-increment counter. -/
def AuthInv (db : AuthDB) : Prop :=
  db.rows.Pairwise (fun a b => a.id ≠ b.id ∧ a.username ≠ b.username ∧ a.email ≠ b.email)
  ∧ ∀ r ∈ db.rows, r.id < db.nextId

/-- Database invariant of the no-auth variant. -/
def PlainInv (db : PlainDB) : Prop :=
  db.rows.Pairwise (fun a b => a.id ≠ b.id ∧ a.username ≠ b.username ∧ a.email ≠ b.email)
  ∧ ∀ r ∈ db.rows, r.id < db.nextId

/-! ## Route inventory of the auth variant (for the authentication claim)

`src/app.py` defines exactly five routes; `generate_password_hash` is
called once (in `register`) and `check_password_hash`, though imported,
is never called anywhere in the file. -/

/-- The two `werkzeug.security` password primitives imported by
`src/app.py`. -/
inductive PasswordPrimitive where
  | generatePasswordHash
  | checkPasswordHash
deriving Repr, DecidableEq

/-- The routes (view functions) defined in `src/app.py`. -/
inductive AuthRoute where
  | index
  | register
  | profile
  | updateProfile
  | logout
deriving Repr, DecidableEq

/-- Which password primitives each route's body calls: only `register`
calls `generate_password_hash`; no route calls `check_password_hash`. -/
def routeCalls : AuthRoute → List PasswordPrimitive
  | .register => [.generatePasswordHash]
  | _ => []

/-- All routes of `src/app.py`, for finite enumeration. -/
def authRoutes : List AuthRoute :=
  [.index, .register, .profile, .updateProfile, .logout]

/-! ## Helper lemmas: outcome characterizations -/

theorem authRegister_cases (hash : String → String) (now : Nat) (f : AuthRegFields)
    (dbV : List AuthRow) (db : AuthDB) :
    (regFormValid dbV f = false ∧ authRegister hash now f dbV db = .validationFailure db) ∨
    (regFormValid dbV f = true ∧
      authInsert db f.username f.email (hash f.password) f.full_name
        (pyAgeOrNone f.age) (pyBioOrNone f.bio) now = .error () ∧
      authRegister hash now f dbV db = .conflict db) ∨
    (∃ db2, regFormValid dbV f = true ∧
      authInsert db f.username f.email (hash f.password) f.full_name
        (pyAgeOrNone f.age) (pyBioOrNone f.bio) now = .ok db2 ∧
      authRegister hash now f dbV db = .success db2) := by
  cases hv : regFormValid dbV f with
  | false => exact Or.inl ⟨rfl, by simp [authRegister, hv]⟩
  | true =>
    cases hins : authInsert db f.username f.email (hash f.password) f.full_name
        (pyAgeOrNone f.age) (pyBioOrNone f.bio) now with
    | error u =>
      cases u
      exact Or.inr (Or.inl ⟨rfl, rfl, by simp [authRegister, hv, hins]⟩)
    | ok db2 =>
      exact Or.inr (Or.inr ⟨db2, rfl, rfl, by simp [authRegister, hv, hins]⟩)

theorem authUpdate_cases (now uid : Nat) (f : AuthUpdFields)
    (dbV : List AuthRow) (db : AuthDB) :
    ((authUpdate now uid f dbV db).db = db) ∨
    (∃ db2, updFormValid dbV uid f = true ∧
      authUpdateRow db uid f.email f.full_name
        (pyAgeOrNone f.age) (pyBioOrNone f.bio) now = .ok db2 ∧
      authUpdate now uid f dbV db = .success db2) := by
  cases hm : dbV.any (fun r => r.id == uid) with
  | false => exact Or.inl (by simp [authUpdate, hm, Outcome.db])
  | true =>
    cases hv : updFormValid dbV uid f with
    | false => exact Or.inl (by simp [authUpdate, hm, hv, Outcome.db])
    | true =>
      cases hupd : authUpdateRow db uid f.email f.full_name
          (pyAgeOrNone f.age) (pyBioOrNone f.bio) now with
      | error u =>
        cases u
        exact Or.inl (by simp [authUpdate, hm, hv, hupd, Outcome.db])
      | ok db2 =>
        exact Or.inr ⟨db2, rfl, rfl, by simp [authUpdate, hm, hv, hupd]⟩

theorem plainRegister_cases (f : PlainFields) (db : PlainDB) :
    (profileFormValid f = false ∧ plainRegister f db = .validationFailure db) ∨
    (profileFormValid f = true ∧
      plainInsert db (pyStrip f.username) (pyStrip f.full_name) (pyStrip f.email)
        f.age (some (pyStrip f.bio)) = .error () ∧
      plainRegister f db = .conflict db) ∨
    (∃ db2, profileFormValid f = true ∧
      plainInsert db (pyStrip f.username) (pyStrip f.full_name) (pyStrip f.email)
        f.age (some (pyStrip f.bio)) = .ok db2 ∧
      plainRegister f db = .success db2) := by
  cases hv : profileFormValid f with
  | false => exact Or.inl ⟨rfl, by simp [plainRegister, hv]⟩
  | true =>
    cases hins : plainInsert db (pyStrip f.username) (pyStrip f.full_name)
        (pyStrip f.email) f.age (some (pyStrip f.bio)) with
    | error u =>
      cases u
      exact Or.inr (Or.inl ⟨rfl, rfl, by simp [plainRegister, hv, hins]⟩)
    | ok db2 =>
      exact Or.inr (Or.inr ⟨db2, rfl, rfl, by simp [plainRegister, hv, hins]⟩)

theorem plainUpdate_cases (uid : Nat) (f : PlainFields) (db : PlainDB) :
    ((plainUpdate uid f db).db = db) ∨
    (∃ db2, profileFormValid f = true ∧
      plainUpdateRow db uid (pyStrip f.username) (pyStrip f.full_name)
        (pyStrip f.email) f.age (some (pyStrip f.bio)) = .ok db2 ∧
      plainUpdate uid f db = .success db2) := by
  cases hm : db.rows.any (fun r => r.id == uid) with
  | false => exact Or.inl (by simp [plainUpdate, hm, Outcome.db])
  | true =>
    cases hv : profileFormValid f with
    | false => exact Or.inl (by simp [plainUpdate, hm, hv, Outcome.db])
    | true =>
      cases hupd : plainUpdateRow db uid (pyStrip f.username) (pyStrip f.full_name)
          (pyStrip f.email) f.age (some (pyStrip f.bio)) with
      | error u =>
        cases u
        exact Or.inl (by simp [plainUpdate, hm, hv, hupd, Outcome.db])
      | ok db2 =>
        exact Or.inr ⟨db2, rfl, rfl, by simp [plainUpdate, hm, hv, hupd]⟩

/-! ## Helper lemmas: the storage constraints preserve the invariants -/

theorem authInsert_inv {db db2 : AuthDB} {u e pw fn : String} {age : Option Int}
    {bio : Option String} {now : Nat} (h : AuthInv db)
    (hok : authInsert db u e pw fn age bio now = .ok db2) : AuthInv db2 := by
  rw [authInsert] at hok
  split at hok
  · exact absurd hok (by simp)
  · next hc =>
    injection hok with h2
    subst h2
    constructor
    · rw [List.pairwise_append]
      refine ⟨h.1, List.pairwise_singleton _ _, ?_⟩
      intro a ha b hb
      rw [List.mem_singleton] at hb
      subst hb
      have hid := h.2 a ha
      have hcol : ¬(a.username = u ∨ a.email = e) := by
        intro hcase
        apply hc
        rw [List.any_eq_true]
        refine ⟨a, ha, ?_⟩
        rcases hcase with h1 | h1 <;> simp [h1]
      push_neg at hcol
      exact ⟨Nat.ne_of_lt hid, hcol.1, hcol.2⟩
    · intro r hr
      rw [List.mem_append] at hr
      rcases hr with hr | hr
      · exact Nat.lt_succ_of_lt (h.2 r hr)
      · rw [List.mem_singleton] at hr
        subst hr
        exact Nat.lt_succ_self _

theorem authUpdateRow_inv {db db2 : AuthDB} {uid : Nat} {e fn : String}
    {age : Option Int} {bio : Option String} {now : Nat} (h : AuthInv db)
    (hok : authUpdateRow db uid e fn age bio now = .ok db2) : AuthInv db2 := by
  rw [authUpdateRow] at hok
  split at hok
  · exact absurd hok (by simp)
  · next hc =>
    injection hok with h2
    subst h2
    have hcol : ∀ r ∈ db.rows, r.id ≠ uid → r.email ≠ e := by
      intro r hr hne heq
      apply hc
      rw [List.any_eq_true]
      exact ⟨r, hr, by simp [hne, heq]⟩
    constructor
    · rw [List.pairwise_map]
      refine h.1.imp_of_mem ?_
      intro a b ha hb hab
      obtain ⟨hid, hun, hem⟩ := hab
      by_cases hau : a.id = uid <;> by_cases hbu : b.id = uid
      · exact absurd (hau.trans hbu.symm) hid
      · have hbe := hcol b hb hbu
        rw [if_pos hau, if_neg hbu]
        exact ⟨hid, hun, fun hx => hbe hx.symm⟩
      · have hae := hcol a ha hau
        rw [if_neg hau, if_pos hbu]
        exact ⟨hid, hun, hae⟩
      · rw [if_neg hau, if_neg hbu]
        exact ⟨hid, hun, hem⟩
    · intro r hr
      rw [List.mem_map] at hr
      obtain ⟨a, ha, rfl⟩ := hr
      have hlt := h.2 a ha
      by_cases hau : a.id = uid
      · rw [if_pos hau]
        exact hlt
      · rw [if_neg hau]
        exact hlt

theorem plainInsert_inv {db db2 : PlainDB} {u fn e : String} {age : Option Int}
    {bio : Option String} (h : PlainInv db)
    (hok : plainInsert db u fn e age bio = .ok db2) : PlainInv db2 := by
  rw [plainInsert] at hok
  split at hok
  · exact absurd hok (by simp)
  · next hc =>
    injection hok with h2
    subst h2
    constructor
    · rw [List.pairwise_append]
      refine ⟨h.1, List.pairwise_singleton _ _, ?_⟩
      intro a ha b hb
      rw [List.mem_singleton] at hb
      subst hb
      have hid := h.2 a ha
      have hcol : ¬(a.username = u ∨ a.email = e) := by
        intro hcase
        apply hc
        rw [List.any_eq_true]
        refine ⟨a, ha, ?_⟩
        rcases hcase with h1 | h1 <;> simp [h1]
      push_neg at hcol
      exact ⟨Nat.ne_of_lt hid, hcol.1, hcol.2⟩
    · intro r hr
      rw [List.mem_append] at hr
      rcases hr with hr | hr
      · exact Nat.lt_succ_of_lt (h.2 r hr)
      · rw [List.mem_singleton] at hr
        subst hr
        exact Nat.lt_succ_self _

theorem plainUpdateRow_inv {db db2 : PlainDB} {uid : Nat} {u fn e : String}
    {age : Option Int} {bio : Option String} (h : PlainInv db)
    (hok : plainUpdateRow db uid u fn e age bio = .ok db2) : PlainInv db2 := by
  rw [plainUpdateRow] at hok
  split at hok
  · exact absurd hok (by simp)
  · next hc =>
    injection hok with h2
    subst h2
    have hcol : ∀ r ∈ db.rows, r.id ≠ uid → r.username ≠ u ∧ r.email ≠ e := by
      intro r hr hne
      constructor <;> intro heq <;> apply hc <;> rw [List.any_eq_true]
      · exact ⟨r, hr, by simp [hne, heq]⟩
      · exact ⟨r, hr, by simp [hne, heq]⟩
    constructor
    · rw [List.pairwise_map]
      refine h.1.imp_of_mem ?_
      intro a b ha hb hab
      obtain ⟨hid, hun, hem⟩ := hab
      by_cases hau : a.id = uid <;> by_cases hbu : b.id = uid
      · exact absurd (hau.trans hbu.symm) hid
      · have hb2 := hcol b hb hbu
        rw [if_pos hau, if_neg hbu]
        exact ⟨hid, fun hx => hb2.1 hx.symm, fun hx => hb2.2 hx.symm⟩
      · have ha2 := hcol a ha hau
        rw [if_neg hau, if_pos hbu]
        exact ⟨hid, ha2.1, ha2.2⟩
      · rw [if_neg hau, if_neg hbu]
        exact ⟨hid, hun, hem⟩
    · intro r hr
      rw [List.mem_map] at hr
      obtain ⟨a, ha, rfl⟩ := hr
      have hlt := h.2 a ha
      by_cases hau : a.id = uid
      · rw [if_pos hau]
        exact hlt
      · rw [if_neg hau]
        exact hlt

theorem authStep_inv {db db2 : AuthDB} (h : AuthInv db) (hs : AuthStep db db2) :
    AuthInv db2 := by
  cases hs with
  | reg hash now f dbV db =>
    rcases authRegister_cases hash now f dbV db with ⟨_, heq⟩ | ⟨_, _, heq⟩ |
        ⟨db3, _, hok, heq⟩ <;> rw [heq]
    · exact h
    · exact h
    · exact authInsert_inv h hok
  | upd now uid f dbV db =>
    rcases authUpdate_cases now uid f dbV db with heq | ⟨db3, _, hok, heq⟩
    · rw [heq]; exact h
    · rw [heq]; exact authUpdateRow_inv h hok

theorem plainStep_inv {db db2 : PlainDB} (h : PlainInv db) (hs : PlainStep db db2) :
    PlainInv db2 := by
  cases hs with
  | reg f db =>
    rcases plainRegister_cases f db with ⟨_, heq⟩ | ⟨_, _, heq⟩ |
        ⟨db3, _, hok, heq⟩ <;> rw [heq]
    · exact h
    · exact h
    · exact plainInsert_inv h hok
  | upd uid f db =>
    rcases plainUpdate_cases uid f db with heq | ⟨db3, _, hok, heq⟩
    · rw [heq]; exact h
    · rw [heq]; exact plainUpdateRow_inv h hok

theorem authReach_inv {db : AuthDB} (h : AuthReach db) : AuthInv db := by
  induction h with
  | init =>
    refine ⟨List.Pairwise.nil, ?_⟩
    intro r hr
    simp [authInitDB] at hr
  | step _ hs ih => exact authStep_inv ih hs

theorem plainReach_inv {db : PlainDB} (h : PlainReach db) : PlainInv db := by
  induction h with
  | init =>
    refine ⟨List.Pairwise.nil, ?_⟩
    intro r hr
    simp [plainInitDB] at hr
  | step _ hs ih => exact plainStep_inv ih hs

/-! ## Helper lemmas: explicit forms of successful writes, and frame facts -/

theorem authInsert_ok_eq {db db2 : AuthDB} {u e pw fn : String} {age : Option Int}
    {bio : Option String} {now : Nat}
    (hok : authInsert db u e pw fn age bio now = .ok db2) :
    db.rows.any (fun r => r.username == u || r.email == e) = false ∧
    db2 = ⟨db.rows ++ [⟨db.nextId, u, e, pw, fn, age, bio, now, now⟩], db.nextId + 1⟩ := by
  rw [authInsert] at hok
  split at hok
  · exact absurd hok (by simp)
  · next hc =>
    injection hok with h2
    exact ⟨Bool.not_eq_true _ ▸ eq_false_of_ne_true hc, h2.symm⟩

theorem authUpdateRow_ok_eq {db db2 : AuthDB} {uid : Nat} {e fn : String}
    {age : Option Int} {bio : Option String} {now : Nat}
    (hok : authUpdateRow db uid e fn age bio now = .ok db2) :
    db.rows.any (fun r => r.id != uid && r.email == e) = false ∧
    db2 = ⟨db.rows.map (fun r =>
            if r.id = uid then
              { r with email := e, full_name := fn, age := age, bio := bio,
                       updated_at := now }
            else r), db.nextId⟩ := by
  rw [authUpdateRow] at hok
  split at hok
  · exact absurd hok (by simp)
  · next hc =>
    injection hok with h2
    exact ⟨eq_false_of_ne_true hc, h2.symm⟩

theorem plainInsert_ok_eq {db db2 : PlainDB} {u fn e : String} {age : Option Int}
    {bio : Option String}
    (hok : plainInsert db u fn e age bio = .ok db2) :
    db.rows.any (fun r => r.username == u || r.email == e) = false ∧
    db2 = ⟨db.rows ++ [⟨db.nextId, u, fn, e, age, bio⟩], db.nextId + 1⟩ := by
  rw [plainInsert] at hok
  split at hok
  · exact absurd hok (by simp)
  · next hc =>
    injection hok with h2
    exact ⟨eq_false_of_ne_true hc, h2.symm⟩

theorem plainUpdateRow_ok_eq {db db2 : PlainDB} {uid : Nat} {u fn e : String}
    {age : Option Int} {bio : Option String}
    (hok : plainUpdateRow db uid u fn e age bio = .ok db2) :
    db.rows.any (fun r => r.id != uid && (r.username == u || r.email == e)) = false ∧
    db2 = ⟨db.rows.map (fun r =>
            if r.id = uid then
              { r with username := u, full_name := fn, email := e,
                       age := age, bio := bio }
            else r), db.nextId⟩ := by
  rw [plainUpdateRow] at hok
  split at hok
  · exact absurd hok (by simp)
  · next hc =>
    injection hok with h2
    exact ⟨eq_false_of_ne_true hc, h2.symm⟩

theorem authStep_frame {db db2 : AuthDB} (hs : AuthStep db db2) :
    db.nextId ≤ db2.nextId ∧ db.rows.length ≤ db2.rows.length ∧
    ∀ r ∈ db.rows, ∃ r2 ∈ db2.rows, r2.id = r.id := by
  cases hs with
  | reg hash now f dbV db =>
    rcases authRegister_cases hash now f dbV db with ⟨_, heq⟩ | ⟨_, _, heq⟩ |
        ⟨db3, _, hok, heq⟩ <;> rw [heq]
    · exact ⟨Nat.le_refl _, Nat.le_refl _, fun r hr => ⟨r, hr, rfl⟩⟩
    · exact ⟨Nat.le_refl _, Nat.le_refl _, fun r hr => ⟨r, hr, rfl⟩⟩
    · obtain ⟨_, rfl⟩ := authInsert_ok_eq hok
      refine ⟨Nat.le_succ _, ?_, ?_⟩
      · simp [Outcome.db]
      · intro r hr
        exact ⟨r, List.mem_append_left _ hr, rfl⟩
  | upd now uid f dbV db =>
    rcases authUpdate_cases now uid f dbV db with heq | ⟨db3, _, hok, heq⟩ <;> rw [heq]
    · exact ⟨Nat.le_refl _, Nat.le_refl _, fun r hr => ⟨r, hr, rfl⟩⟩
    · obtain ⟨_, rfl⟩ := authUpdateRow_ok_eq hok
      refine ⟨Nat.le_refl _, by simp [Outcome.db], ?_⟩
      intro r hr
      refine ⟨_, List.mem_map_of_mem _ hr, ?_⟩
      by_cases hru : r.id = uid
      · rw [if_pos hru]
      · rw [if_neg hru]

theorem plainStep_frame {db db2 : PlainDB} (hs : PlainStep db db2) :
    db.nextId ≤ db2.nextId ∧ db.rows.length ≤ db2.rows.length ∧
    ∀ r ∈ db.rows, ∃ r2 ∈ db2.rows, r2.id = r.id := by
  cases hs with
  | reg f db =>
    rcases plainRegister_cases f db with ⟨_, heq⟩ | ⟨_, _, heq⟩ |
        ⟨db3, _, hok, heq⟩ <;> rw [heq]
    · exact ⟨Nat.le_refl _, Nat.le_refl _, fun r hr => ⟨r, hr, rfl⟩⟩
    · exact ⟨Nat.le_refl _, Nat.le_refl _, fun r hr => ⟨r, hr, rfl⟩⟩
    · obtain ⟨_, rfl⟩ := plainInsert_ok_eq hok
      refine ⟨Nat.le_succ _, by simp [Outcome.db], ?_⟩
      intro r hr
      exact ⟨r, List.mem_append_left _ hr, rfl⟩
  | upd uid f db =>
    rcases plainUpdate_cases uid f db with heq | ⟨db3, _, hok, heq⟩ <;> rw [heq]
    · exact ⟨Nat.le_refl _, Nat.le_refl _, fun r hr => ⟨r, hr, rfl⟩⟩
    · obtain ⟨_, rfl⟩ := plainUpdateRow_ok_eq hok
      refine ⟨Nat.le_refl _, by simp [Outcome.db], ?_⟩
      intro r hr
      refine ⟨_, List.mem_map_of_mem _ hr, ?_⟩
      by_cases hru : r.id = uid
      · rw [if_pos hru]
      · rw [if_neg hru]

/-! ## Helper lemmas: full outcome case analyses and success equations -/

theorem authUpdate_cases_full (now uid : Nat) (f : AuthUpdFields)
    (dbV : List AuthRow) (db : AuthDB) :
    (dbV.any (fun r => r.id == uid) = false ∧
      authUpdate now uid f dbV db = .notFound db) ∨
    (dbV.any (fun r => r.id == uid) = true ∧ updFormValid dbV uid f = false ∧
      authUpdate now uid f dbV db = .validationFailure db) ∨
    (dbV.any (fun r => r.id == uid) = true ∧ updFormValid dbV uid f = true ∧
      authUpdateRow db uid f.email f.full_name
        (pyAgeOrNone f.age) (pyBioOrNone f.bio) now = .error () ∧
      authUpdate now uid f dbV db = .uncaught db) ∨
    (∃ db2, dbV.any (fun r => r.id == uid) = true ∧ updFormValid dbV uid f = true ∧
      authUpdateRow db uid f.email f.full_name
        (pyAgeOrNone f.age) (pyBioOrNone f.bio) now = .ok db2 ∧
      authUpdate now uid f dbV db = .success db2) := by
  cases hm : dbV.any (fun r => r.id == uid) with
  | false => exact Or.inl ⟨rfl, by simp [authUpdate, hm]⟩
  | true =>
    cases hv : updFormValid dbV uid f with
    | false => exact Or.inr (Or.inl ⟨rfl, rfl, by simp [authUpdate, hm, hv]⟩)
    | true =>
      cases hupd : authUpdateRow db uid f.email f.full_name
          (pyAgeOrNone f.age) (pyBioOrNone f.bio) now with
      | error u =>
        cases u
        exact Or.inr (Or.inr (Or.inl ⟨rfl, rfl, rfl, by simp [authUpdate, hm, hv, hupd]⟩))
      | ok db2 =>
        exact Or.inr (Or.inr (Or.inr ⟨db2, rfl, rfl, rfl, by simp [authUpdate, hm, hv, hupd]⟩))

theorem plainUpdate_cases_full (uid : Nat) (f : PlainFields) (db : PlainDB) :
    (db.rows.any (fun r => r.id == uid) = false ∧
      plainUpdate uid f db = .notFound db) ∨
    (db.rows.any (fun r => r.id == uid) = true ∧ profileFormValid f = false ∧
      plainUpdate uid f db = .validationFailure db) ∨
    (db.rows.any (fun r => r.id == uid) = true ∧ profileFormValid f = true ∧
      plainUpdateRow db uid (pyStrip f.username) (pyStrip f.full_name)
        (pyStrip f.email) f.age (some (pyStrip f.bio)) = .error () ∧
      plainUpdate uid f db = .conflict db) ∨
    (∃ db2, db.rows.any (fun r => r.id == uid) = true ∧ profileFormValid f = true ∧
      plainUpdateRow db uid (pyStrip f.username) (pyStrip f.full_name)
        (pyStrip f.email) f.age (some (pyStrip f.bio)) = .ok db2 ∧
      plainUpdate uid f db = .success db2) := by
  cases hm : db.rows.any (fun r => r.id == uid) with
  | false => exact Or.inl ⟨rfl, by simp [plainUpdate, hm]⟩
  | true =>
    cases hv : profileFormValid f with
    | false => exact Or.inr (Or.inl ⟨rfl, rfl, by simp [plainUpdate, hm, hv]⟩)
    | true =>
      cases hupd : plainUpdateRow db uid (pyStrip f.username) (pyStrip f.full_name)
          (pyStrip f.email) f.age (some (pyStrip f.bio)) with
      | error u =>
        cases u
        exact Or.inr (Or.inr (Or.inl ⟨rfl, rfl, rfl, by simp [plainUpdate, hm, hv, hupd]⟩))
      | ok db2 =>
        exact Or.inr (Or.inr (Or.inr ⟨db2, rfl, rfl, rfl, by simp [plainUpdate, hm, hv, hupd]⟩))

theorem authRegister_success_eq {hash : String → String} {now : Nat}
    {f : AuthRegFields} {dbV : List AuthRow} {db db2 : AuthDB}
    (h : authRegister hash now f dbV db = .success db2) :
    regFormValid dbV f = true ∧
    db.rows.any (fun r => r.username == f.username || r.email == f.email) = false ∧
    db2 = ⟨db.rows ++ [⟨db.nextId, f.username, f.email, hash f.password, f.full_name,
      pyAgeOrNone f.age, pyBioOrNone f.bio, now, now⟩], db.nextId + 1⟩ := by
  rcases authRegister_cases hash now f dbV db with ⟨_, heq⟩ | ⟨_, _, heq⟩ |
      ⟨db3, hv, hok, heq⟩
  · rw [heq] at h; exact absurd h (by simp)
  · rw [heq] at h; exact absurd h (by simp)
  · rw [heq] at h
    injection h with h2
    subst h2
    obtain ⟨hcol, rfl⟩ := authInsert_ok_eq hok
    exact ⟨hv, hcol, rfl⟩

theorem plainRegister_success_eq {f : PlainFields} {db db2 : PlainDB}
    (h : plainRegister f db = .success db2) :
    profileFormValid f = true ∧
    db.rows.any (fun r => r.username == pyStrip f.username ||
      r.email == pyStrip f.email) = false ∧
    db2 = ⟨db.rows ++ [⟨db.nextId, pyStrip f.username, pyStrip f.full_name,
      pyStrip f.email, f.age, some (pyStrip f.bio)⟩], db.nextId + 1⟩ := by
  rcases plainRegister_cases f db with ⟨_, heq⟩ | ⟨_, _, heq⟩ | ⟨db3, hv, hok, heq⟩
  · rw [heq] at h; exact absurd h (by simp)
  · rw [heq] at h; exact absurd h (by simp)
  · rw [heq] at h
    injection h with h2
    subst h2
    obtain ⟨hcol, rfl⟩ := plainInsert_ok_eq hok
    exact ⟨hv, hcol, rfl⟩

theorem authUpdate_success_eq {now uid : Nat} {f : AuthUpdFields}
    {dbV : List AuthRow} {db db2 : AuthDB}
    (h : authUpdate now uid f dbV db = .success db2) :
    dbV.any (fun r => r.id == uid) = true ∧ updFormValid dbV uid f = true ∧
    db.rows.any (fun r => r.id != uid && r.email == f.email) = false ∧
    db2 = ⟨db.rows.map (fun r =>
            if r.id = uid then
              { r with email := f.email, full_name := f.full_name,
                       age := pyAgeOrNone f.age, bio := pyBioOrNone f.bio,
                       updated_at := now }
            else r), db.nextId⟩ := by
  rcases authUpdate_cases_full now uid f dbV db with ⟨_, heq⟩ | ⟨_, _, heq⟩ |
      ⟨_, _, _, heq⟩ | ⟨db3, hm, hv, hok, heq⟩
  · rw [heq] at h; exact absurd h (by simp)
  · rw [heq] at h; exact absurd h (by simp)
  · rw [heq] at h; exact absurd h (by simp)
  · rw [heq] at h
    injection h with h2
    subst h2
    obtain ⟨hcol, rfl⟩ := authUpdateRow_ok_eq hok
    exact ⟨hm, hv, hcol, rfl⟩

theorem plainUpdate_success_eq {uid : Nat} {f : PlainFields} {db db2 : PlainDB}
    (h : plainUpdate uid f db = .success db2) :
    db.rows.any (fun r => r.id == uid) = true ∧ profileFormValid f = true ∧
    db.rows.any (fun r => r.id != uid && (r.username == pyStrip f.username ||
      r.email == pyStrip f.email)) = false ∧
    db2 = ⟨db.rows.map (fun r =>
            if r.id = uid then
              { r with username := pyStrip f.username,
                       full_name := pyStrip f.full_name,
                       email := pyStrip f.email, age := f.age,
                       bio := some (pyStrip f.bio) }
            else r), db.nextId⟩ := by
  rcases plainUpdate_cases_full uid f db with ⟨_, heq⟩ | ⟨_, _, heq⟩ |
      ⟨_, _, _, heq⟩ | ⟨db3, hm, hv, hok, heq⟩
  · rw [heq] at h; exact absurd h (by simp)
  · rw [heq] at h; exact absurd h (by simp)
  · rw [heq] at h; exact absurd h (by simp)
  · rw [heq] at h
    injection h with h2
    subst h2
    obtain ⟨hcol, rfl⟩ := plainUpdateRow_ok_eq hok
    exact ⟨hm, hv, hcol, rfl⟩

theorem authInsert_error_of_collision {db : AuthDB} {u e pw fn : String}
    {age : Option Int} {bio : Option String} {now : Nat}
    (h : db.rows.any (fun r => r.username == u || r.email == e) = true) :
    authInsert db u e pw fn age bio now = .error () := by
  simp [authInsert, h]

theorem authUpdateRow_error_of_collision {db : AuthDB} {uid : Nat} {e fn : String}
    {age : Option Int} {bio : Option String} {now : Nat}
    (h : db.rows.any (fun r => r.id != uid && r.email == e) = true) :
    authUpdateRow db uid e fn age bio now = .error () := by
  simp [authUpdateRow, h]

theorem plainInsert_error_of_collision {db : PlainDB} {u fn e : String}
    {age : Option Int} {bio : Option String}
    (h : db.rows.any (fun r => r.username == u || r.email == e) = true) :
    plainInsert db u fn e age bio = .error () := by
  simp [plainInsert, h]

theorem plainUpdateRow_error_of_collision {db : PlainDB} {uid : Nat} {u fn e : String}
    {age : Option Int} {bio : Option String}
    (h : db.rows.any (fun r => r.id != uid && (r.username == u || r.email == e)) = true) :
    plainUpdateRow db uid u fn e age bio = .error () := by
  simp [plainUpdateRow, h]

/-! ## Concrete fixtures for witnesses and counterexamples -/

/-- Demonstration stand-in for `werkzeug.security.generate_password_hash`
(a salted one-way hash in the application; any concrete function serves
the role in witnesses). -/
def hashDemo : String → String := fun s => String.append "pbkdf2-sha256-salt-" s

/-- A valid registration submission for the auth variant. -/
def fieldsJdoe : AuthRegFields :=
  { username := "jdoe", email := "jdoe@example.com", password := "secret1",
    full_name := "John Doe", age := some 34, bio := "hi" }

/-- The row produced by registering `fieldsJdoe` into an empty database. -/
def rowJdoe : AuthRow :=
  ⟨1, "jdoe", "jdoe@example.com", hashDemo "secret1", "John Doe",
   some 34, some "hi", 0, 0⟩

/-- A second auth-variant row. -/
def rowAlice : AuthRow :=
  ⟨2, "asmith", "alice@example.com", hashDemo "alicepw", "Alice Smith",
   some 28, none, 0, 0⟩

/-- The sample rows of the no-auth variant (`__main__` seeds `jdoe` and
`asmith`). -/
def prowJdoe : PlainRow :=
  ⟨1, "jdoe", "John Doe", "jdoe@example.com", some 34, some "A short bio about John."⟩

/-- Second no-auth sample row. -/
def prowAlice : PlainRow :=
  ⟨2, "asmith", "Alice Smith", "alice@example.com", some 28,
   some "Alice loves coding and coffee."⟩

/-- A valid no-auth-variant submission. -/
def pfieldsJdoe : PlainFields :=
  { username := "jdoe", full_name := "John Doe",
    email := "jdoe@example.com", age := some 34, bio := "hi" }

/-- A syntactically valid email address of 132 characters:
64 `a`s, `@`, 63 `b`s, `.com`. -/
def longEmail : String :=
  String.mk (List.replicate 64 'a') ++ "@" ++ String.mk (List.replicate 63 'b') ++ ".com"

/-! ## The claims -/

set_option maxRecDepth 4000 in
/-- **C4.** The claim says an omitted age passes the age rule in both
variants, and ages are bounded 1–150 (auth) / 0–120 (no-auth).  The
bounds and the boundary behaviour at 0 and 151 are as claimed, but the
optionality is not: neither form's age field carries an `Optional()`
validator, so WTForms runs `NumberRange` on `None` and rejects it — a
submission whose every other field is valid is rejected in both variants
when the age is omitted, contradicting the nullable `age INTEGER` column
and the `form.age.data if ... else None` insert handling that show age
was meant to be optional. -/
theorem C4_age_rule_code_bug :
    regFormValid [] { fieldsJdoe with age := none } = false ∧
    regFormValid [] fieldsJdoe = true ∧
    profileFormValid { pfieldsJdoe with age := none } = false ∧
    profileFormValid pfieldsJdoe = true ∧
    ageOkAuth none = false ∧ ageOkPlain none = false ∧
    ageOkPlain (some 0) = true ∧ ageOkAuth (some 0) = false ∧
    ageOkAuth (some 151) = false ∧ ageOkPlain (some 151) = false := by
  decide

/-- **C8 (counterexample).** The claim asserts a login/verification
operation exists in the auth variant.  `src/app.py` defines exactly the
routes `index`, `register`, `profile`, `update_profile`, `logout`, and
none of them calls `check_password_hash`: no route performs password
verification. -/
theorem C8_counterexample :
    (authRoutes.all
      (fun r => !(routeCalls r).contains PasswordPrimitive.checkPasswordHash)) = true ∧
    ∀ r : AuthRoute, r ∈ authRoutes := by
  refine ⟨by decide, ?_⟩
  intro r
  cases r <;> decide

/-- **C8 (amended).** No route of the auth variant calls
`check_password_hash` (it is imported but unused), so no login/verification
operation exists; the only password primitive actually invoked is
`generate_password_hash`, during registration. -/
theorem C8_no_login_operation :
    (∀ r : AuthRoute,
      (routeCalls r).contains PasswordPrimitive.checkPasswordHash = false) ∧
    routeCalls AuthRoute.register = [PasswordPrimitive.generatePasswordHash] := by
  refine ⟨?_, rfl⟩
  intro r
  cases r <;> decide

set_option maxRecDepth 8000 in
/-- **C6 (counterexample).** The claim says every submission whose email
exceeds 120 characters is rejected in both variants.  `longEmail` has 132
characters and valid syntax; the auth variant's registration form (whose
email field has validators `DataRequired`, `Email` and no `Length`)
accepts a whole submission carrying it, while the no-auth form rejects it. -/
theorem C6_counterexample :
    longEmail.length = 132 ∧
    regEmailOk [] longEmail = true ∧
    regFormValid [] { fieldsJdoe with email := longEmail } = true ∧
    plainEmailOk longEmail = false := by
  refine ⟨by decide, by decide, by decide, by decide⟩

set_option maxRecDepth 8000 in
/-- **C6 (amended).** In both variants the email field is required with
valid syntax; the 120-character cap is enforced only by the no-auth
variant's form — the auth variant's email validators impose no length
bound, and `longEmail` (132 characters) passes them. -/
theorem C6_email_rules :
    (∀ (dbV : List AuthRow) (e : String), regEmailOk dbV e = true →
      dataRequiredOk e = true ∧ emailSyntaxOk e = true) ∧
    (∀ (dbV : List AuthRow) (uid : Nat) (e : String), updEmailOk dbV uid e = true →
      dataRequiredOk e = true ∧ emailSyntaxOk e = true) ∧
    (∀ e : String, plainEmailOk e = true →
      dataRequiredOk e = true ∧ emailSyntaxOk e = true ∧ e.length ≤ 120) ∧
    (regEmailOk [] longEmail = true ∧ 120 < longEmail.length ∧
      plainEmailOk longEmail = false) := by
  refine ⟨?_, ?_, ?_, by decide, by decide, by decide⟩
  · intro dbV e h
    rw [regEmailOk, Bool.and_eq_true, Bool.and_eq_true] at h
    exact ⟨h.1.1, h.1.2⟩
  · intro dbV uid e h
    rw [updEmailOk, Bool.and_eq_true, Bool.and_eq_true] at h
    exact ⟨h.1.1, h.1.2⟩
  · intro e h
    rw [plainEmailOk, Bool.and_eq_true, Bool.and_eq_true] at h
    exact ⟨h.1.1, h.1.2, by exact_mod_cast of_decide_eq_true h.2⟩

/-- **C6 (witness).** The amended email rules evaluated at concrete
inputs. -/
theorem C6_email_rules_witness :
    (dataRequiredOk "jdoe@example.com" = true ∧ emailSyntaxOk "jdoe@example.com" = true) ∧
    (dataRequiredOk "jdoe@example.com" = true ∧ emailSyntaxOk "jdoe@example.com" = true) ∧
    (dataRequiredOk "jdoe@example.com" = true ∧ emailSyntaxOk "jdoe@example.com" = true ∧
      ("jdoe@example.com" : String).length ≤ 120) :=
  ⟨C6_email_rules.1 [] "jdoe@example.com" (by decide),
   C6_email_rules.2.1 [] 1 "jdoe@example.com" (by decide),
   C6_email_rules.2.2.1 "jdoe@example.com" (by decide)⟩

/-- `fieldsJdoe` with whitespace around the username (length 6, so still
within the 3–20 bound; the whole submission passes validation). -/
def fieldsSpacey : AuthRegFields := { fieldsJdoe with username := " jdoe " }

set_option maxRecDepth 4000 in
/-- **C3 (counterexample).** The claim says both variants trim every
string field and store an empty bio as absent.  The auth variant does
neither kind of trimming: registering `" jdoe "` stores the username with
its surrounding spaces.  The no-auth variant trims, but stores an empty
bio as the empty string `''`, not as absent. -/
theorem C3_counterexample :
    authRegister hashDemo 0 fieldsSpacey [] authInitDB =
      .success ⟨[⟨1, " jdoe ", "jdoe@example.com", hashDemo "secret1", "John Doe",
                  some 34, some "hi", 0, 0⟩], 2⟩ ∧
    (pyStrip " jdoe " == " jdoe ") = false ∧
    plainRegister { pfieldsJdoe with bio := "" } plainInitDB =
      .success ⟨[⟨1, "jdoe", "John Doe", "jdoe@example.com", some 34, some ""⟩], 2⟩ ∧
    (some "" == (none : Option String)) = false := by
  refine ⟨by decide, by decide, by decide, by decide⟩

/-- **C3 (amended).** What each variant actually persists for a validated
submission: the no-auth variant trims every string field but stores an
empty bio as the empty string `some ""`; the auth variant persists the
raw untrimmed strings, storing an empty bio as absent (`none`) via Python
truthiness. -/
theorem C3_normalization :
    (∀ (f : PlainFields) (db db2 : PlainDB), plainRegister f db = .success db2 →
      db2.rows = db.rows ++ [⟨db.nextId, pyStrip f.username, pyStrip f.full_name,
        pyStrip f.email, f.age, some (pyStrip f.bio)⟩]) ∧
    (∀ (hash : String → String) (now : Nat) (f : AuthRegFields)
        (dbV : List AuthRow) (db db2 : AuthDB),
      authRegister hash now f dbV db = .success db2 →
      db2.rows = db.rows ++ [⟨db.nextId, f.username, f.email, hash f.password,
        f.full_name, pyAgeOrNone f.age, pyBioOrNone f.bio, now, now⟩]) ∧
    pyBioOrNone "" = none ∧ some (pyStrip "") = some "" := by
  refine ⟨?_, ?_, by decide, by decide⟩
  · intro f db db2 h
    obtain ⟨_, _, rfl⟩ := plainRegister_success_eq h
    rfl
  · intro hash now f dbV db db2 h
    obtain ⟨_, _, rfl⟩ := authRegister_success_eq h
    rfl

set_option maxRecDepth 4000 in
/-- **C3 (witness).** The amended normalization statement evaluated on a
concrete no-auth registration. -/
theorem C3_normalization_witness :
    (⟨[⟨1, "jdoe", "John Doe", "jdoe@example.com", some 34, some "hi"⟩], 2⟩ :
        PlainDB).rows =
      plainInitDB.rows ++ [⟨plainInitDB.nextId, pyStrip pfieldsJdoe.username,
        pyStrip pfieldsJdoe.full_name, pyStrip pfieldsJdoe.email,
        pfieldsJdoe.age, some (pyStrip pfieldsJdoe.bio)⟩] :=
  C3_normalization.1 pfieldsJdoe plainInitDB _ (by decide)

/-- **C7.** In the auth variant, every successful registration passed the
password rule (`DataRequired`, length ≥ 6), and the single row it appends
stores `hash password` — the output of `generate_password_hash` — in the
password column; whenever the hash differs from the plaintext (as a
one-way salted hash does), the stored value is not the plaintext. -/
theorem C7_password_hashed (hash : String → String) (now : Nat)
    (f : AuthRegFields) (dbV : List AuthRow) (db db2 : AuthDB)
    (h : authRegister hash now f dbV db = .success db2) :
    regPasswordOk f.password = true ∧ dataRequiredOk f.password = true ∧
    6 ≤ f.password.length ∧
    db2.rows = db.rows ++ [⟨db.nextId, f.username, f.email, hash f.password,
      f.full_name, pyAgeOrNone f.age, pyBioOrNone f.bio, now, now⟩] ∧
    (hash f.password ≠ f.password →
      ∀ r ∈ db2.rows, r ∉ db.rows → r.password ≠ f.password) := by
  obtain ⟨hv, hcol, rfl⟩ := authRegister_success_eq h
  rw [regFormValid] at hv
  simp only [Bool.and_eq_true] at hv
  obtain ⟨⟨⟨⟨⟨hu, he⟩, hp⟩, hfn⟩, hag⟩, hb⟩ := hv
  have hp2 := hp
  rw [regPasswordOk, Bool.and_eq_true] at hp2
  refine ⟨hp, hp2.1, of_decide_eq_true hp2.2, rfl, ?_⟩
  intro hne r hr hnotold
  rw [List.mem_append] at hr
  rcases hr with hr | hr
  · exact absurd hr hnotold
  · rw [List.mem_singleton] at hr
    subst hr
    exact hne

set_option maxRecDepth 4000 in
/-- **C7 (witness).** The password theorem applied to a concrete
successful registration. -/
theorem C7_password_hashed_witness :
    regPasswordOk fieldsJdoe.password = true :=
  (C7_password_hashed hashDemo 0 fieldsJdoe [] authInitDB ⟨[rowJdoe], 2⟩
    (by decide)).1

/-- **C10.** In the no-auth variant, `ProfileForm` performs no database
query, so an update submission whose static rules pass reaches the
`UPDATE` even when its new username or email belongs to a different
existing row; the storage `UNIQUE` constraint then raises, the handler
catches it, and the conflict branch is returned with the database
unchanged. -/
theorem C10_update_collision_caught (uid : Nat) (f : PlainFields) (db : PlainDB)
    (hm : db.rows.any (fun r => r.id == uid) = true)
    (hv : profileFormValid f = true)
    (hcol : db.rows.any (fun r => r.id != uid &&
      (r.username == pyStrip f.username || r.email == pyStrip f.email)) = true) :
    plainUpdate uid f db = .conflict db := by
  have herr := @plainUpdateRow_error_of_collision db uid (pyStrip f.username)
    (pyStrip f.full_name) (pyStrip f.email) f.age (some (pyStrip f.bio)) hcol
  simp [plainUpdate, hm, hv, herr]

set_option maxRecDepth 4000 in
/-- **C10 (witness).** Updating the seeded row `jdoe` (id 1) to the
username `asmith`, which belongs to row 2: validation passes, the write
conflicts, and the database is unchanged. -/
theorem C10_update_collision_caught_witness :
    plainUpdate 1
      { username := "asmith", full_name := "John Doe",
        email := "jdoe@example.com", age := some 34, bio := "hi" }
      ⟨[prowJdoe, prowAlice], 3⟩ = .conflict ⟨[prowJdoe, prowAlice], 3⟩ :=
  C10_update_collision_caught 1 _ _ (by decide) (by decide) (by decide)

set_option maxRecDepth 4000 in
/-- **C2 (counterexample).** The claim says both variants catch write-time
uniqueness violations in register *and* update.  The auth variant's
`update_profile` has no `try/except` around its `UPDATE`: with a
validation snapshot containing only `jdoe` but a current database in
which `asmith` registered `alice@example.com` in between, updating
`jdoe`'s email to `alice@example.com` passes validation and then raises
an uncaught `IntegrityError`. -/
theorem C2_counterexample :
    authUpdate 9 1
      { email := "alice@example.com", full_name := "John Doe",
        age := some 34, bio := "hi" }
      [rowJdoe] ⟨[rowJdoe, rowAlice], 3⟩ =
    .uncaught ⟨[rowJdoe, rowAlice], 3⟩ := by
  decide

/-- **C2 (amended).** Register in both variants and update in the no-auth
variant catch the storage uniqueness violation and return the recoverable
conflict branch with the database unchanged; the auth variant's update
does not, so there a write-time uniqueness violation escapes as an
unhandled error (the database is still unchanged). -/
theorem C2_conflict_handling :
    (∀ (hash : String → String) (now : Nat) (f : AuthRegFields)
        (dbV : List AuthRow) (db : AuthDB),
      regFormValid dbV f = true →
      db.rows.any (fun r => r.username == f.username || r.email == f.email) = true →
      authRegister hash now f dbV db = .conflict db) ∧
    (∀ (f : PlainFields) (db : PlainDB),
      profileFormValid f = true →
      db.rows.any (fun r => r.username == pyStrip f.username ||
        r.email == pyStrip f.email) = true →
      plainRegister f db = .conflict db) ∧
    (∀ (uid : Nat) (f : PlainFields) (db : PlainDB),
      db.rows.any (fun r => r.id == uid) = true →
      profileFormValid f = true →
      db.rows.any (fun r => r.id != uid && (r.username == pyStrip f.username ||
        r.email == pyStrip f.email)) = true →
      plainUpdate uid f db = .conflict db) ∧
    (∀ (now uid : Nat) (f : AuthUpdFields) (dbV : List AuthRow) (db : AuthDB),
      dbV.any (fun r => r.id == uid) = true →
      updFormValid dbV uid f = true →
      db.rows.any (fun r => r.id != uid && r.email == f.email) = true →
      authUpdate now uid f dbV db = .uncaught db) := by
  refine ⟨?_, ?_, ?_, ?_⟩
  · intro hash now f dbV db hv hcol
    have herr := @authInsert_error_of_collision db f.username f.email
      (hash f.password) f.full_name (pyAgeOrNone f.age) (pyBioOrNone f.bio) now hcol
    simp [authRegister, hv, herr]
  · intro f db hv hcol
    have herr := @plainInsert_error_of_collision db (pyStrip f.username)
      (pyStrip f.full_name) (pyStrip f.email) f.age (some (pyStrip f.bio)) hcol
    simp [plainRegister, hv, herr]
  · intro uid f db hm hv hcol
    have herr := @plainUpdateRow_error_of_collision db uid (pyStrip f.username)
      (pyStrip f.full_name) (pyStrip f.email) f.age (some (pyStrip f.bio)) hcol
    simp [plainUpdate, hm, hv, herr]
  · intro now uid f dbV db hm hv hcol
    have herr := @authUpdateRow_error_of_collision db uid f.email f.full_name
      (pyAgeOrNone f.age) (pyBioOrNone f.bio) now hcol
    simp [authUpdate, hm, hv, herr]

set_option maxRecDepth 4000 in
/-- **C2 (witness).** The amended conflict-handling statement at concrete
racing inputs: a register losing a username/email race is flashed the
conflict branch, and the auth update escapes uncaught. -/
theorem C2_conflict_handling_witness :
    authRegister hashDemo 3 fieldsJdoe [] ⟨[rowJdoe], 2⟩ = .conflict ⟨[rowJdoe], 2⟩ ∧
    authUpdate 9 1
      { email := "alice@example.com", full_name := "John Doe",
        age := some 34, bio := "hi" }
      [rowJdoe] ⟨[rowJdoe, rowAlice], 3⟩ = .uncaught ⟨[rowJdoe, rowAlice], 3⟩ :=
  ⟨C2_conflict_handling.1 hashDemo 3 fieldsJdoe [] ⟨[rowJdoe], 2⟩
      (by decide) (by decide),
   C2_conflict_handling.2.2.2 9 1 _ [rowJdoe] ⟨[rowJdoe, rowAlice], 3⟩
      (by decide) (by decide) (by decide)⟩

/-- **C5.** No self-collision false positive on update, in either variant:
if the database satisfies the uniqueness invariant and the submission
keeps the target row's own email (and, in the no-auth variant where the
update also rewrites the username, its own username), then neither the
validation-time exclusion query (auth variant) nor the storage constraint
flags a collision, and the update succeeds. -/
theorem C5_no_self_collision :
    (∀ (now uid : Nat) (f : AuthUpdFields) (db : AuthDB) (r : AuthRow),
      AuthInv db → r ∈ db.rows → r.id = uid → f.email = r.email →
      dataRequiredOk f.email = true → emailSyntaxOk f.email = true →
      fullNameOk f.full_name = true → ageOkAuth f.age = true → bioOk f.bio = true →
      ∃ db2, authUpdate now uid f db.rows db = .success db2) ∧
    (∀ (uid : Nat) (f : PlainFields) (db : PlainDB) (r : PlainRow),
      PlainInv db → r ∈ db.rows → r.id = uid →
      pyStrip f.username = r.username → pyStrip f.email = r.email →
      profileFormValid f = true →
      ∃ db2, plainUpdate uid f db = .success db2) := by
  constructor
  · intro now uid f db r hinv hr hruid hre hdr hsy hfn hag hb
    have hsym : Symmetric (fun a b : AuthRow =>
        a.id ≠ b.id ∧ a.username ≠ b.username ∧ a.email ≠ b.email) := by
      intro a b hab
      exact ⟨Ne.symm hab.1, Ne.symm hab.2.1, Ne.symm hab.2.2⟩
    have hnone : ∀ r2 ∈ db.rows, ¬(r2.id ≠ uid ∧ r2.email = f.email) := by
      rintro r2 hr2 ⟨hid2, hem2⟩
      have hner : r2 ≠ r := by
        intro hcontra
        exact hid2 (hcontra ▸ hruid)
      have hdist := hinv.1.forall hsym hr2 hr hner
      exact hdist.2.2 (hem2.trans hre)
    have hany1 : db.rows.any (fun r2 => r2.email == f.email && r2.id != uid) = false := by
      rw [List.any_eq_false]
      intro r2 hr2
      simp only [Bool.and_eq_true, beq_iff_eq, bne_iff_ne, not_and]
      intro hem2 hid2
      exact hnone r2 hr2 ⟨hid2, hem2⟩
    have hany2 : db.rows.any (fun r2 => r2.id != uid && r2.email == f.email) = false := by
      rw [List.any_eq_false]
      intro r2 hr2
      simp only [Bool.and_eq_true, beq_iff_eq, bne_iff_ne, not_and]
      intro hid2 hem2
      exact hnone r2 hr2 ⟨hid2, hem2⟩
    have hm : db.rows.any (fun r2 => r2.id == uid) = true := by
      rw [List.any_eq_true]
      exact ⟨r, hr, by simp [hruid]⟩
    have hvalid : updFormValid db.rows uid f = true := by
      simp only [updFormValid, updEmailOk, Bool.and_eq_true]
      exact ⟨⟨⟨⟨⟨hdr, hsy⟩, by simp [hany1]⟩, hfn⟩, hag⟩, hb⟩
    refine ⟨⟨db.rows.map (fun r2 =>
        if r2.id = uid then
          { r2 with email := f.email, full_name := f.full_name,
                    age := pyAgeOrNone f.age, bio := pyBioOrNone f.bio,
                    updated_at := now }
        else r2), db.nextId⟩, ?_⟩
    simp [authUpdate, hm, hvalid, authUpdateRow, hany2]
  · intro uid f db r hinv hr hruid hun hre hv
    have hsym : Symmetric (fun a b : PlainRow =>
        a.id ≠ b.id ∧ a.username ≠ b.username ∧ a.email ≠ b.email) := by
      intro a b hab
      exact ⟨Ne.symm hab.1, Ne.symm hab.2.1, Ne.symm hab.2.2⟩
    have hany2 : db.rows.any (fun r2 => r2.id != uid &&
        (r2.username == pyStrip f.username || r2.email == pyStrip f.email)) = false := by
      rw [List.any_eq_false]
      intro r2 hr2
      simp only [Bool.and_eq_true, Bool.or_eq_true, beq_iff_eq, bne_iff_ne, not_and]
      intro hid2 hcase
      have hner : r2 ≠ r := by
        intro hcontra
        exact hid2 (hcontra ▸ hruid)
      have hdist := hinv.1.forall hsym hr2 hr hner
      rcases hcase with hcase | hcase
      · exact hdist.2.1 (hcase.trans hun)
      · exact hdist.2.2 (hcase.trans hre)
    have hm : db.rows.any (fun r2 => r2.id == uid) = true := by
      rw [List.any_eq_true]
      exact ⟨r, hr, by simp [hruid]⟩
    refine ⟨⟨db.rows.map (fun r2 =>
        if r2.id = uid then
          { r2 with username := pyStrip f.username, full_name := pyStrip f.full_name,
                    email := pyStrip f.email, age := f.age,
                    bio := some (pyStrip f.bio) }
        else r2), db.nextId⟩, ?_⟩
    simp [plainUpdate, hm, hv, plainUpdateRow, hany2]

set_option maxRecDepth 4000 in
/-- **C5 (witness).** Keeping one's own email (and username) on a concrete
two-row database succeeds in both variants. -/
theorem C5_no_self_collision_witness :
    (∃ db2, authUpdate 7 1
      { email := "jdoe@example.com", full_name := "John D.",
        age := some 35, bio := "hello" }
      (⟨[rowJdoe, rowAlice], 3⟩ : AuthDB).rows
      ⟨[rowJdoe, rowAlice], 3⟩ = .success db2) ∧
    (∃ db2, plainUpdate 1
      { username := "jdoe", full_name := "John D.",
        email := "jdoe@example.com", age := some 35, bio := "" }
      ⟨[prowJdoe, prowAlice], 3⟩ = .success db2) :=
  ⟨C5_no_self_collision.1 7 1 _ ⟨[rowJdoe, rowAlice], 3⟩ rowJdoe
      ⟨by decide, by decide⟩ (by decide) rfl rfl
      (by decide) (by decide) (by decide) (by decide) (by decide),
   C5_no_self_collision.2 1 _ ⟨[prowJdoe, prowAlice], 3⟩ prowJdoe
      ⟨by decide, by decide⟩ (by decide) rfl (by decide) (by decide) (by decide)⟩

/-- **C1.** In every database state reachable by register/update
operations (with arbitrary, possibly stale validation snapshots, i.e.
including races), usernames, emails and ids are pairwise distinct and
every id is below the auto-increment counter; every step preserves each
existing row's id and never decreases the counter (ids are never reused
or mutated); and a register whose write hits an existing username or
email leaves the database unchanged — if it had passed validation (the
race case), the caller receives the conflict branch. -/
theorem C1_storage_uniqueness :
    (∀ db : AuthDB, AuthReach db → AuthInv db) ∧
    (∀ db : PlainDB, PlainReach db → PlainInv db) ∧
    (∀ db db2 : AuthDB, AuthStep db db2 →
      db.nextId ≤ db2.nextId ∧ ∀ r ∈ db.rows, ∃ r2 ∈ db2.rows, r2.id = r.id) ∧
    (∀ db db2 : PlainDB, PlainStep db db2 →
      db.nextId ≤ db2.nextId ∧ ∀ r ∈ db.rows, ∃ r2 ∈ db2.rows, r2.id = r.id) ∧
    (∀ (hash : String → String) (now : Nat) (f : AuthRegFields)
        (dbV : List AuthRow) (db : AuthDB),
      db.rows.any (fun r => r.username == f.username || r.email == f.email) = true →
      (authRegister hash now f dbV db).db = db ∧
      (regFormValid dbV f = true → authRegister hash now f dbV db = .conflict db)) ∧
    (∀ (f : PlainFields) (db : PlainDB),
      db.rows.any (fun r => r.username == pyStrip f.username ||
        r.email == pyStrip f.email) = true →
      (plainRegister f db).db = db ∧
      (profileFormValid f = true → plainRegister f db = .conflict db)) := by
  refine ⟨fun db h => authReach_inv h, fun db h => plainReach_inv h, ?_, ?_, ?_, ?_⟩
  · intro db db2 hs
    exact ⟨(authStep_frame hs).1, (authStep_frame hs).2.2⟩
  · intro db db2 hs
    exact ⟨(plainStep_frame hs).1, (plainStep_frame hs).2.2⟩
  · intro hash now f dbV db hcol
    have herr := @authInsert_error_of_collision db f.username f.email
      (hash f.password) f.full_name (pyAgeOrNone f.age) (pyBioOrNone f.bio) now hcol
    constructor
    · cases hv : regFormValid dbV f with
      | false => simp [authRegister, hv, Outcome.db]
      | true => simp [authRegister, hv, herr, Outcome.db]
    · intro hv
      simp [authRegister, hv, herr]
  · intro f db hcol
    have herr := @plainInsert_error_of_collision db (pyStrip f.username)
      (pyStrip f.full_name) (pyStrip f.email) f.age (some (pyStrip f.bio)) hcol
    constructor
    · cases hv : profileFormValid f with
      | false => simp [plainRegister, hv, Outcome.db]
      | true => simp [plainRegister, hv, herr, Outcome.db]
    · intro hv
      simp [plainRegister, hv, herr]

set_option maxRecDepth 4000 in
/-- **C1 (witness).** The invariant at the initial and a one-step state,
the frame facts along a concrete step, and the race branch on a concrete
collision. -/
theorem C1_storage_uniqueness_witness :
    AuthInv authInitDB ∧ PlainInv plainInitDB ∧
    (authInitDB.nextId ≤ (authRegister hashDemo 0 fieldsJdoe [] authInitDB).db.nextId ∧
      ∀ r ∈ authInitDB.rows,
        ∃ r2 ∈ (authRegister hashDemo 0 fieldsJdoe [] authInitDB).db.rows, r2.id = r.id) ∧
    (plainInitDB.nextId ≤ (plainRegister pfieldsJdoe plainInitDB).db.nextId ∧
      ∀ r ∈ plainInitDB.rows,
        ∃ r2 ∈ (plainRegister pfieldsJdoe plainInitDB).db.rows, r2.id = r.id) ∧
    ((authRegister hashDemo 3 fieldsJdoe [] ⟨[rowJdoe], 2⟩).db = ⟨[rowJdoe], 2⟩ ∧
      (regFormValid [] fieldsJdoe = true →
        authRegister hashDemo 3 fieldsJdoe [] ⟨[rowJdoe], 2⟩ = .conflict ⟨[rowJdoe], 2⟩)) ∧
    ((plainRegister pfieldsJdoe ⟨[prowJdoe], 2⟩).db = ⟨[prowJdoe], 2⟩ ∧
      (profileFormValid pfieldsJdoe = true →
        plainRegister pfieldsJdoe ⟨[prowJdoe], 2⟩ = .conflict ⟨[prowJdoe], 2⟩)) :=
  ⟨C1_storage_uniqueness.1 authInitDB AuthReach.init,
   C1_storage_uniqueness.2.1 plainInitDB PlainReach.init,
   C1_storage_uniqueness.2.2.1 authInitDB _
     (AuthStep.reg hashDemo 0 fieldsJdoe [] authInitDB),
   C1_storage_uniqueness.2.2.2.1 plainInitDB _
     (PlainStep.reg pfieldsJdoe plainInitDB),
   C1_storage_uniqueness.2.2.2.2.1 hashDemo 3 fieldsJdoe [] ⟨[rowJdoe], 2⟩ (by decide),
   C1_storage_uniqueness.2.2.2.2.2 pfieldsJdoe ⟨[prowJdoe], 2⟩ (by decide)⟩

/-- **C9.** Lifecycle and frame: no step of either variant removes a row
or changes an existing row's id; a successful registration adds exactly
one row and an update (whatever its outcome) adds none; a successful
update rewrites only the target row, replacing exactly email, full_name,
age, bio (and updated_at in the auth variant) — plus username in the
no-auth variant — while keeping id (and, in the auth variant, username,
password and created_at) unchanged, and leaves all other rows equal. -/
theorem C9_lifecycle :
    (∀ db db2 : AuthDB, AuthStep db db2 → db.rows.length ≤ db2.rows.length ∧
      ∀ r ∈ db.rows, ∃ r2 ∈ db2.rows, r2.id = r.id) ∧
    (∀ db db2 : PlainDB, PlainStep db db2 → db.rows.length ≤ db2.rows.length ∧
      ∀ r ∈ db.rows, ∃ r2 ∈ db2.rows, r2.id = r.id) ∧
    (∀ (hash : String → String) (now : Nat) (f : AuthRegFields)
        (dbV : List AuthRow) (db db2 : AuthDB),
      authRegister hash now f dbV db = .success db2 →
      db2.rows.length = db.rows.length + 1) ∧
    (∀ (f : PlainFields) (db db2 : PlainDB),
      plainRegister f db = .success db2 →
      db2.rows.length = db.rows.length + 1) ∧
    (∀ (now uid : Nat) (f : AuthUpdFields) (dbV : List AuthRow) (db : AuthDB),
      ((authUpdate now uid f dbV db).db).rows.length = db.rows.length) ∧
    (∀ (uid : Nat) (f : PlainFields) (db : PlainDB),
      ((plainUpdate uid f db).db).rows.length = db.rows.length) ∧
    (∀ (now uid : Nat) (f : AuthUpdFields) (dbV : List AuthRow) (db db2 : AuthDB),
      authUpdate now uid f dbV db = .success db2 →
      ∀ r ∈ db.rows,
        (r.id ≠ uid → r ∈ db2.rows) ∧
        (r.id = uid →
          ({ r with email := f.email, full_name := f.full_name,
                    age := pyAgeOrNone f.age, bio := pyBioOrNone f.bio,
                    updated_at := now } : AuthRow) ∈ db2.rows)) ∧
    (∀ (uid : Nat) (f : PlainFields) (db db2 : PlainDB),
      plainUpdate uid f db = .success db2 →
      ∀ r ∈ db.rows,
        (r.id ≠ uid → r ∈ db2.rows) ∧
        (r.id = uid →
          ({ r with username := pyStrip f.username,
                    full_name := pyStrip f.full_name,
                    email := pyStrip f.email, age := f.age,
                    bio := some (pyStrip f.bio) } : PlainRow) ∈ db2.rows)) := by
  refine ⟨?_, ?_, ?_, ?_, ?_, ?_, ?_, ?_⟩
  · intro db db2 hs
    exact ⟨(authStep_frame hs).2.1, (authStep_frame hs).2.2⟩
  · intro db db2 hs
    exact ⟨(plainStep_frame hs).2.1, (plainStep_frame hs).2.2⟩
  · intro hash now f dbV db db2 h
    obtain ⟨_, _, rfl⟩ := authRegister_success_eq h
    simp
  · intro f db db2 h
    obtain ⟨_, _, rfl⟩ := plainRegister_success_eq h
    simp
  · intro now uid f dbV db
    rcases authUpdate_cases now uid f dbV db with heq | ⟨db3, _, hok, heq⟩
    · rw [heq]
    · rw [heq]
      obtain ⟨_, rfl⟩ := authUpdateRow_ok_eq hok
      simp [Outcome.db]
  · intro uid f db
    rcases plainUpdate_cases uid f db with heq | ⟨db3, _, hok, heq⟩
    · rw [heq]
    · rw [heq]
      obtain ⟨_, rfl⟩ := plainUpdateRow_ok_eq hok
      simp [Outcome.db]
  · intro now uid f dbV db db2 h r hr
    obtain ⟨_, _, _, rfl⟩ := authUpdate_success_eq h
    constructor
    · intro hne
      have : (if r.id = uid then
          ({ r with email := f.email, full_name := f.full_name,
                    age := pyAgeOrNone f.age, bio := pyBioOrNone f.bio,
                    updated_at := now } : AuthRow) else r) = r := if_neg hne
      exact this ▸ List.mem_map_of_mem _ hr
    · intro heq
      have : (if r.id = uid then
          ({ r with email := f.email, full_name := f.full_name,
                    age := pyAgeOrNone f.age, bio := pyBioOrNone f.bio,
                    updated_at := now } : AuthRow) else r) =
          { r with email := f.email, full_name := f.full_name,
                   age := pyAgeOrNone f.age, bio := pyBioOrNone f.bio,
                   updated_at := now } := if_pos heq
      exact this ▸ List.mem_map_of_mem _ hr
  · intro uid f db db2 h r hr
    obtain ⟨_, _, _, rfl⟩ := plainUpdate_success_eq h
    constructor
    · intro hne
      have : (if r.id = uid then
          ({ r with username := pyStrip f.username,
                    full_name := pyStrip f.full_name,
                    email := pyStrip f.email, age := f.age,
                    bio := some (pyStrip f.bio) } : PlainRow) else r) = r := if_neg hne
      exact this ▸ List.mem_map_of_mem _ hr
    · intro heq
      have : (if r.id = uid then
          ({ r with username := pyStrip f.username,
                    full_name := pyStrip f.full_name,
                    email := pyStrip f.email, age := f.age,
                    bio := some (pyStrip f.bio) } : PlainRow) else r) =
          { r with username := pyStrip f.username,
                   full_name := pyStrip f.full_name,
                   email := pyStrip f.email, age := f.age,
                   bio := some (pyStrip f.bio) } := if_pos heq
      exact this ▸ List.mem_map_of_mem _ hr

set_option maxRecDepth 4000 in
/-- **C9 (witness).** The lifecycle facts applied along concrete steps:
a one-row registration and a successful self-update. -/
theorem C9_lifecycle_witness :
    (authInitDB.rows.length ≤ (authRegister hashDemo 0 fieldsJdoe [] authInitDB).db.rows.length ∧
      ∀ r ∈ authInitDB.rows,
        ∃ r2 ∈ (authRegister hashDemo 0 fieldsJdoe [] authInitDB).db.rows, r2.id = r.id) ∧
    ((⟨[rowJdoe], 2⟩ : AuthDB).rows.length = authInitDB.rows.length + 1) ∧
    ((plainUpdate 3
        { username := "zoe", full_name := "Zoe Q",
          email := "zoe@example.com", age := some 30, bio := "" }
        ⟨[prowJdoe, prowAlice], 3⟩).db).rows.length =
      (⟨[prowJdoe, prowAlice], 3⟩ : PlainDB).rows.length :=
  ⟨C9_lifecycle.1 authInitDB _ (AuthStep.reg hashDemo 0 fieldsJdoe [] authInitDB),
   C9_lifecycle.2.2.1 hashDemo 0 fieldsJdoe [] authInitDB ⟨[rowJdoe], 2⟩ (by decide),
   C9_lifecycle.2.2.2.2.2.1 3 _ ⟨[prowJdoe, prowAlice], 3⟩⟩

end SummDemo
